import Mathlib

/-!
Verification development for the query-result caching layer of the
porqpine mongodb wrapper (src/collectionWrapper.js).

The JavaScript values flowing through the cache core are embedded as the
inductive type `JsVal`; the callback/promise orchestration of
`cachedAggregate` and `cachedMapReduce` is embedded as pure functions from
the invocation's argument list and an environment (the outcomes supplied
by the storage and query collaborators) to a record of the observable
effects of the invocation (executor calls, upserts, completion-handler
invocations, synchronous exceptions).
-/

/-- A JavaScript value, as used by the cache core.  `vFunc` carries the
function's source text (all the core ever does with a function argument is
call `toString` on it).  `vColl` is a mongodb Collection handle as returned
by `db.collection(name)`; the handle is opaque to the core except for its
`collectionName` property. -/
inductive JsVal where
  | vNull
  | vUndefined
  | vBool (b : Bool)
  | vNum (n : Int)
  | vStr (s : String)
  | vFunc (src : String)
  | vArr (xs : List JsVal)
  | vObj (fs : List (String × JsVal))
  | vColl (name : JsVal)
deriving Repr

/-- Field lookup in an object's field list (first match). -/
def lookupField : List (String × JsVal) → String → Option JsVal
  | [], _ => none
  | (k, v) :: rest, key => if k = key then some v else lookupField rest key

/-- JavaScript property access `v.k` on a value that is not null/undefined
(property access on null/undefined throws and is modelled separately at
the call sites where it can happen).  Non-object primitives are boxed and
have none of the properties the core reads, so they yield undefined. -/
def getProp : JsVal → String → JsVal
  | .vObj fs, k => (lookupField fs k).getD .vUndefined
  | .vColl nm, k => if k = "collectionName" then nm else .vUndefined
  | _, _ => .vUndefined

/-- Is the value `null` or `undefined` (property access throws TypeError). -/
def isNullish : JsVal → Bool
  | .vNull => true
  | .vUndefined => true
  | _ => false

/-- JavaScript truthiness. -/
def truthy : JsVal → Bool
  | .vNull => false
  | .vUndefined => false
  | .vBool b => b
  | .vNum n => n != 0
  | .vStr s => !s.isEmpty
  | .vFunc _ => true
  | .vArr _ => true
  | .vObj _ => true
  | .vColl _ => true

/-- lodash `_.isEmpty`: true on null/undefined, on non-collection
primitives, and on collections with no elements / objects with no own
enumerable keys. -/
def isEmpty : JsVal → Bool
  | .vNull => true
  | .vUndefined => true
  | .vBool _ => true
  | .vNum _ => true
  | .vStr s => s.isEmpty
  | .vFunc _ => true
  | .vArr xs => xs.isEmpty
  | .vObj fs => fs.isEmpty
  | .vColl _ => false

/-! JSON serialization, mirroring `JSON.stringify` as called by
`hashQueryArgs`:  undefined and functions serialize to nothing (dropped as
object fields, `null` as array elements), strings are quoted and escaped,
arrays and objects recurse in element/insertion order. -/

/-- Hex digit character (lowercase), for `\u00XX` escapes. -/
def hexDigitChar (n : Nat) : Char :=
  "0123456789abcdef".data.getD n '0'

/-- Escape a single character as `JSON.stringify` does inside a quoted
string. -/
def jsonEscapeChar (c : Char) : List Char :=
  if c = '"' then ['\\', '"']
  else if c = '\\' then ['\\', '\\']
  else if c = '\n' then ['\\', 'n']
  else if c = '\r' then ['\\', 'r']
  else if c = '\t' then ['\\', 't']
  else if c.toNat = 8 then ['\\', 'b']
  else if c.toNat = 12 then ['\\', 'f']
  else if c.toNat < 32 then
    ['\\', 'u', '0', '0', hexDigitChar (c.toNat / 16), hexDigitChar (c.toNat % 16)]
  else [c]

/-- Quote and escape a string as `JSON.stringify` does. -/
def jsonQuote (s : String) : String :=
  "\"" ++ String.mk ((s.data.map jsonEscapeChar).flatten) ++ "\""

mutual

/-- `JSON.stringify` on a single value; `none` models JavaScript's
`undefined` result (for `undefined` and functions).  A Collection handle
serializes through its name field (the handle is opaque to this core and
never reaches the serializer in any behaviour verified here). -/
def jsonVal : JsVal → Option String
  | .vNull => some "null"
  | .vUndefined => none
  | .vFunc _ => none
  | .vBool true => some "true"
  | .vBool false => some "false"
  | .vNum n => some (toString n)
  | .vStr s => some (jsonQuote s)
  | .vArr xs => some ("[" ++ jsonElems xs ++ "]")
  | .vObj fs => some ("\x7b" ++ jsonFields fs ++ "\x7d")
  | .vColl nm =>
    some ("\x7b" ++ jsonQuote "collectionName" ++ ":" ++ ((jsonVal nm).getD "null") ++ "\x7d")

/-- Comma-joined serialization of array elements; `undefined`/function
elements become `null`. -/
def jsonElems : List JsVal → String
  | [] => ""
  | [x] => (jsonVal x).getD "null"
  | x :: y :: xs => (jsonVal x).getD "null" ++ "," ++ jsonElems (y :: xs)

/-- Comma-joined serialization of object fields; fields whose value
serializes to nothing are dropped. -/
def jsonFields : List (String × JsVal) → String
  | [] => ""
  | (k, v) :: rest =>
    match jsonVal v with
    | none => jsonFields rest
    | some sv =>
      let tail := jsonFields rest
      if tail = "" then jsonQuote k ++ ":" ++ sv
      else jsonQuote k ++ ":" ++ sv ++ "," ++ tail

end

/-! UTF-8 encoding of a string, as node's `hash.update(string)` applies to
its input before digesting. -/

/-- UTF-8 bytes of a single code point. -/
def utf8BytesOfChar (c : Nat) : List Nat :=
  if c < 128 then [c]
  else if c < 2048 then [192 + c / 64, 128 + c % 64]
  else if c < 65536 then [224 + c / 4096, 128 + c / 64 % 64, 128 + c % 64]
  else [240 + c / 262144, 128 + c / 4096 % 64, 128 + c / 64 % 64, 128 + c % 64]

/-- UTF-8 bytes of a string. -/
def strUtf8 (s : String) : List Nat :=
  (s.data.map (fun ch => utf8BytesOfChar ch.toNat)).flatten

/-! The MD5 digest (RFC 1321), over byte lists, with 32-bit words as
naturals reduced mod 2^32. -/

/-- 2^32. -/
def w32 : Nat := 4294967296

/-- Reduce mod 2^32. -/
def m32 (x : Nat) : Nat := x % w32

/-- 32-bit bitwise complement. -/
def not32 (x : Nat) : Nat := (w32 - 1) - m32 x

/-- 32-bit left rotation by `s` (0 < s < 32). -/
def rotl32 (x s : Nat) : Nat := m32 (m32 x * 2 ^ s) + m32 x / 2 ^ (32 - s)

/-- The 64 MD5 round constants. -/
def md5K : List Nat :=
  [0xd76aa478, 0xe8c7b756, 0x242070db, 0xc1bdceee,
   0xf57c0faf, 0x4787c62a, 0xa8304613, 0xfd469501,
   0x698098d8, 0x8b44f7af, 0xffff5bb1, 0x895cd7be,
   0x6b901122, 0xfd987193, 0xa679438e, 0x49b40821,
   0xf61e2562, 0xc040b340, 0x265e5a51, 0xe9b6c7aa,
   0xd62f105d, 0x02441453, 0xd8a1e681, 0xe7d3fbc8,
   0x21e1cde6, 0xc33707d6, 0xf4d50d87, 0x455a14ed,
   0xa9e3e905, 0xfcefa3f8, 0x676f02d9, 0x8d2a4c8a,
   0xfffa3942, 0x8771f681, 0x6d9d6122, 0xfde5380c,
   0xa4beea44, 0x4bdecfa9, 0xf6bb4b60, 0xbebfbc70,
   0x289b7ec6, 0xeaa127fa, 0xd4ef3085, 0x04881d05,
   0xd9d4d039, 0xe6db99e5, 0x1fa27cf8, 0xc4ac5665,
   0xf4292244, 0x432aff97, 0xab9423a7, 0xfc93a039,
   0x655b59c3, 0x8f0ccc92, 0xffeff47d, 0x85845dd1,
   0x6fa87e4f, 0xfe2ce6e0, 0xa3014314, 0x4e0811a1,
   0xf7537e82, 0xbd3af235, 0x2ad7d2bb, 0xeb86d391]

/-- The 64 MD5 per-round shift amounts. -/
def md5S : List Nat :=
  [7, 12, 17, 22, 7, 12, 17, 22, 7, 12, 17, 22, 7, 12, 17, 22,
   5, 9, 14, 20, 5, 9, 14, 20, 5, 9, 14, 20, 5, 9, 14, 20,
   4, 11, 16, 23, 4, 11, 16, 23, 4, 11, 16, 23, 4, 11, 16, 23,
   6, 10, 15, 21, 6, 10, 15, 21, 6, 10, 15, 21, 6, 10, 15, 21]

/-- MD5 internal state: the four 32-bit registers. -/
structure Md5State where
  a : Nat
  b : Nat
  c : Nat
  d : Nat
deriving Repr

/-- One MD5 round: `M` gives the 16 message words of the current chunk,
`i` is the round index (0..63). -/
def md5Round (M : Nat → Nat) (st : Md5State) (i : Nat) : Md5State :=
  let f :=
    if i < 16 then Nat.lor (Nat.land st.b st.c) (Nat.land (not32 st.b) st.d)
    else if i < 32 then Nat.lor (Nat.land st.d st.b) (Nat.land (not32 st.d) st.c)
    else if i < 48 then Nat.xor (Nat.xor st.b st.c) st.d
    else Nat.xor st.c (Nat.lor st.b (not32 st.d))
  let g :=
    if i < 16 then i
    else if i < 32 then (5 * i + 1) % 16
    else if i < 48 then (3 * i + 5) % 16
    else (7 * i) % 16
  let f2 := m32 (f + st.a + md5K.getD i 0 + M g)
  { a := st.d, b := m32 (st.b + rotl32 f2 (md5S.getD i 0)), c := st.b, d := st.c }

/-- Process the 64-byte chunk starting at byte `64 * ci` of the padded
message. -/
def md5ChunkAt (padded : List Nat) (st : Md5State) (ci : Nat) : Md5State :=
  let M : Nat → Nat := fun g =>
    padded.getD (64 * ci + 4 * g) 0 +
    256 * padded.getD (64 * ci + 4 * g + 1) 0 +
    65536 * padded.getD (64 * ci + 4 * g + 2) 0 +
    16777216 * padded.getD (64 * ci + 4 * g + 3) 0
  let r := (List.range 64).foldl (md5Round M) st
  { a := m32 (st.a + r.a), b := m32 (st.b + r.b),
    c := m32 (st.c + r.c), d := m32 (st.d + r.d) }

/-- MD5 padding: append the 0x80 marker, zeros to 56 mod 64, and the
64-bit little-endian bit length. -/
def md5Pad (msg : List Nat) : List Nat :=
  let zeros := (120 - (msg.length + 1) % 64) % 64
  msg ++ [128] ++ List.replicate zeros 0 ++
    (List.range 8).map (fun i => msg.length * 8 / 2 ^ (8 * i) % 256)

/-- The four little-endian bytes of a 32-bit word. -/
def wordLEBytes (x : Nat) : List Nat :=
  [x % 256, x / 256 % 256, x / 65536 % 256, x / 16777216 % 256]

/-- The 16-byte MD5 digest of a byte list. -/
def md5Bytes (msg : List Nat) : List Nat :=
  let padded := md5Pad msg
  let st := (List.range (padded.length / 64)).foldl (md5ChunkAt padded)
    { a := 0x67452301, b := 0xefcdab89, c := 0x98badcfe, d := 0x10325476 }
  wordLEBytes st.a ++ wordLEBytes st.b ++ wordLEBytes st.c ++ wordLEBytes st.d

/-! Base64 encoding, as `hash.digest('base64')` renders the 16 digest
bytes. -/

/-- The base64 alphabet. -/
def b64Alphabet : List Char :=
  ['A', 'B', 'C', 'D', 'E', 'F', 'G', 'H', 'I', 'J', 'K', 'L', 'M',
   'N', 'O', 'P', 'Q', 'R', 'S', 'T', 'U', 'V', 'W', 'X', 'Y', 'Z',
   'a', 'b', 'c', 'd', 'e', 'f', 'g', 'h', 'i', 'j', 'k', 'l', 'm',
   'n', 'o', 'p', 'q', 'r', 's', 't', 'u', 'v', 'w', 'x', 'y', 'z',
   '0', '1', '2', '3', '4', '5', '6', '7', '8', '9', '+', '/']

/-- Character for a 6-bit group. -/
def b64Char (n : Nat) : Char := b64Alphabet.getD n 'A'

/-- Base64 characters of a byte list, three bytes to four characters,
`=`-padded at the end. -/
def base64Chars : List Nat → List Char
  | [] => []
  | [b1] => [b64Char (b1 / 4), b64Char (b1 % 4 * 16), '=', '=']
  | [b1, b2] =>
    [b64Char (b1 / 4), b64Char (b1 % 4 * 16 + b2 / 16), b64Char (b2 % 16 * 4), '=']
  | b1 :: b2 :: b3 :: rest =>
    b64Char (b1 / 4) :: b64Char (b1 % 4 * 16 + b2 / 16) ::
    b64Char (b2 % 16 * 4 + b3 / 64) :: b64Char (b3 % 64) :: base64Chars rest

/-- Base64 encoding of a byte list. -/
def base64Encode (bytes : List Nat) : String := String.mk (base64Chars bytes)

/-! The cache core of src/collectionWrapper.js. -/

/-- The normalized invocation parameters produced by
`parseCacheFuncParams` (the completion handler itself is opaque; the
orchestration records its invocations instead of calling it). -/
structure Params where
  cacheOptions : JsVal
  queryArgsArray : List JsVal
deriving Repr

/-- The string-sugar step of `parseCacheFuncParams`: a bare string first
argument stands for an options object carrying it as
`cacheCollectionName` (`typeof args[0] === 'string'`). -/
def sugarCacheOptions : JsVal → JsVal
  | .vStr s => .vObj [("cacheCollectionName", .vStr s)]
  | v => v

/-- `parseCacheFuncParams(arguments)`: pop the trailing completion
handler, read the first remaining argument as cache options (with string
sugar), keep the rest as the query-argument tuple. -/
def parseCacheFuncParams (functionArgs : List JsVal) : Params :=
  let args := functionArgs.dropLast
  { cacheOptions := sugarCacheOptions (args.headD .vUndefined)
    queryArgsArray := args.drop 1 }

/-- The per-element substitution in `hashQueryArgs`: a function argument
is replaced by its source text (`value.toString()`), every other value is
kept as-is. -/
def fnToSource : JsVal → JsVal
  | .vFunc src => .vStr src
  | v => v

/-- `hashQueryArgs(argsArray)`: substitute function arguments by their
source text, `JSON.stringify` the resulting array, and render the MD5
digest of its UTF-8 bytes in base64. -/
def hashQueryArgs (argsArray : List JsVal) : String :=
  let argsToHash := argsArray.map fnToSource
  base64Encode (md5Bytes (strUtf8 ((jsonVal (JsVal.vArr argsToHash)).getD "")))

/-- `saveResultToCache`: the filter and replacement document of the single
upsert performed on the cache collection (`cachedAt` is `new Date()`,
modelled as the invocation-time timestamp). -/
def saveResultToCache (queryHash : String) (resultToCache : JsVal) (now : Int) :
    JsVal × JsVal :=
  (JsVal.vObj [("queryHash", JsVal.vStr queryHash)],
   JsVal.vObj [("queryHash", JsVal.vStr queryHash),
               ("cachedAt", JsVal.vNum now),
               ("cachedResult", resultToCache)])

/-- The outcomes the asynchronous collaborators produce during one
invocation: the cache lookup (`findOneAsync`, resolving to the stored
entry or null, or rejecting), the underlying query executor
(`aggregateAsync` / `mapReduceAsync`), the error the cache write's
callback reports (none on success), and the current time. -/
structure Env where
  lookup : Except JsVal JsVal
  exec : Except JsVal JsVal
  upsertErr : Option JsVal
  now : Int

/-- The error value a node-style callback receives: the reported error, or
null on success. -/
def jsErr : Option JsVal → JsVal
  | none => .vNull
  | some e => e

/-- The observable effects of one invocation of a cached operation:
a synchronous exception (if the invocation threw before reaching the
promise chain), the value passed to `db.collection` to resolve the cache
collection, the filter of the cache lookup, the values passed to
`db.collection` to resolve a result collection (map-reduce hits in
reference mode), the argument lists of the underlying executor calls, the
(filter, document) pairs of the upserts, and the (error, result) pairs of
the completion-handler invocations, in order. -/
structure InvocationResult where
  thrown : Option String
  cacheCollectionArg : Option JsVal
  lookupFilter : Option JsVal
  resolvedCollections : List JsVal
  execCalls : List (List JsVal)
  upsertCalls : List (JsVal × JsVal)
  callbackCalls : List (JsVal × JsVal)
deriving Repr

/-- `cachedAggregate(cacheOptions, pipeline[, options], callback)`
(src/collectionWrapper.js lines 74-101): parse the arguments, hash the
query arguments, resolve the cache collection (TypeError if the parsed
cache options are null/undefined, from the property access on line 81),
look up by fingerprint; on a non-empty entry without `forceUpdateCache`
call back with the stored result; otherwise run the aggregate, upsert the
result keyed by the fingerprint, and call back with the write outcome and
the live result; lookup and execution failures reach the callback through
the promise `catch` handlers. -/
def cachedAggregate (args : List JsVal) (env : Env) : InvocationResult :=
  let params := parseCacheFuncParams args
  let argsHash := hashQueryArgs params.queryArgsArray
  if isNullish params.cacheOptions then
    { thrown := some "TypeError", cacheCollectionArg := none, lookupFilter := none,
      resolvedCollections := [], execCalls := [], upsertCalls := [], callbackCalls := [] }
  else
    let nameVal := getProp params.cacheOptions "cacheCollectionName"
    let collArg := if truthy nameVal then nameVal else JsVal.vStr "queryCache"
    let filter := JsVal.vObj [("queryHash", JsVal.vStr argsHash)]
    let base : InvocationResult :=
      { thrown := none, cacheCollectionArg := some collArg, lookupFilter := some filter,
        resolvedCollections := [], execCalls := [], upsertCalls := [], callbackCalls := [] }
    match env.lookup with
    | .error e => { base with callbackCalls := [(e, JsVal.vUndefined)] }
    | .ok cacheEntry =>
      if !isEmpty cacheEntry && !truthy (getProp params.cacheOptions "forceUpdateCache") then
        { base with callbackCalls := [(JsVal.vNull, getProp cacheEntry "cachedResult")] }
      else
        match env.exec with
        | .error e =>
          { base with execCalls := [params.queryArgsArray],
                      callbackCalls := [(e, JsVal.vUndefined)] }
        | .ok results =>
          { base with execCalls := [params.queryArgsArray],
                      upsertCalls := [saveResultToCache argsHash results env.now],
                      callbackCalls := [(jsErr env.upsertErr, results)] }

/-- The inline-output test of `cachedMapReduce` (line 135):
`params.queryArgsArray[2] && params.queryArgsArray[2].out &&
params.queryArgsArray[2].out.inline || false`, used as a condition. -/
def mrUsesInline (queryArgsArray : List JsVal) : Bool :=
  let arg2 := queryArgsArray.getD 2 JsVal.vUndefined
  truthy arg2 && truthy (getProp arg2 "out") &&
    truthy (getProp (getProp arg2 "out") "inline")

/-- `cachedMapReduce(cacheOptions, map, reduce[, options], callback)`
(src/collectionWrapper.js lines 127-157): as `cachedAggregate`, except
that on a hit in reference (non-inline) mode the stored value is resolved
to a collection handle via `db.collection`, and on a miss in reference
mode the value cached is the result handle's `collectionName` rather than
the result itself. -/
def cachedMapReduce (args : List JsVal) (env : Env) : InvocationResult :=
  let params := parseCacheFuncParams args
  let argsHash := hashQueryArgs params.queryArgsArray
  if isNullish params.cacheOptions then
    { thrown := some "TypeError", cacheCollectionArg := none, lookupFilter := none,
      resolvedCollections := [], execCalls := [], upsertCalls := [], callbackCalls := [] }
  else
    let nameVal := getProp params.cacheOptions "cacheCollectionName"
    let collArg := if truthy nameVal then nameVal else JsVal.vStr "queryCache"
    let usesInlineOutput := mrUsesInline params.queryArgsArray
    let filter := JsVal.vObj [("queryHash", JsVal.vStr argsHash)]
    let base : InvocationResult :=
      { thrown := none, cacheCollectionArg := some collArg, lookupFilter := some filter,
        resolvedCollections := [], execCalls := [], upsertCalls := [], callbackCalls := [] }
    match env.lookup with
    | .error e => { base with callbackCalls := [(e, JsVal.vUndefined)] }
    | .ok cacheEntry =>
      if !isEmpty cacheEntry && !truthy (getProp params.cacheOptions "forceUpdateCache") then
        if usesInlineOutput then
          { base with callbackCalls := [(JsVal.vNull, getProp cacheEntry "cachedResult")] }
        else
          { base with resolvedCollections := [getProp cacheEntry "cachedResult"],
                      callbackCalls :=
                        [(JsVal.vNull, JsVal.vColl (getProp cacheEntry "cachedResult"))] }
      else
        match env.exec with
        | .error e =>
          { base with execCalls := [params.queryArgsArray],
                      callbackCalls := [(e, JsVal.vUndefined)] }
        | .ok result =>
          let resultToCache :=
            if usesInlineOutput then result
            else if truthy result then getProp result "collectionName" else result
          { base with execCalls := [params.queryArgsArray],
                      upsertCalls := [saveResultToCache argsHash resultToCache env.now],
                      callbackCalls := [(jsErr env.upsertErr, result)] }

/-! The cache collection's state, for the upsert-invariant claims: a list
of stored documents, read by `findOne` on the fingerprint filter and
written by `update(filter, doc, upsert: true)`, which replaces the first
matching document or inserts the document when none matches. -/

/-- Does a stored document match the filter `queryHash: h` (string
equality on the document's `queryHash` field). -/
def entryMatches (h : String) (d : JsVal) : Bool :=
  match getProp d "queryHash" with
  | .vStr s => s = h
  | _ => false

/-- `findOne` on the cache collection with filter `queryHash: h`. -/
def findOneQ (st : List JsVal) (h : String) : Option JsVal :=
  st.find? (entryMatches h)

/-- `update(filter queryHash: h, doc, upsert: true)` on the cache
collection: replace the first matching document, or insert the document
when no document matches. -/
def applyUpsert : List JsVal → String → JsVal → List JsVal
  | [], _, doc => [doc]
  | d :: rest, h, doc =>
    if entryMatches h d then doc :: rest else d :: applyUpsert rest h doc

/-- The cache invariant: at most one stored document per distinct
queryHash. -/
def cacheInv (st : List JsVal) : Prop :=
  ∀ h, (st.filter (entryMatches h)).length ≤ 1

/-! Helper lemmas. -/

/-- Splitting an invocation's argument list into cache options, query
arguments and trailing completion handler. -/
theorem parseCacheFuncParams_split (copt cb : JsVal) (qargs : List JsVal) :
    parseCacheFuncParams (copt :: (qargs ++ [cb])) =
      { cacheOptions := sugarCacheOptions copt, queryArgsArray := qargs } := by
  have hd : (copt :: (qargs ++ [cb])).dropLast = copt :: qargs := by
    rw [show copt :: (qargs ++ [cb]) = (copt :: qargs) ++ [cb] from by simp]
    exact List.dropLast_concat
  simp [parseCacheFuncParams, hd]

/-- The MD5 digest always has 16 bytes. -/
theorem md5Bytes_length (msg : List Nat) : (md5Bytes msg).length = 16 := by
  simp [md5Bytes, wordLEBytes]

/-- Base64 produces four characters per three-byte group, the last group
padded. -/
theorem base64Chars_length : ∀ l : List Nat,
    (base64Chars l).length = 4 * ((l.length + 2) / 3)
  | [] => by simp [base64Chars]
  | [_] => by simp [base64Chars]
  | [_, _] => by simp [base64Chars]
  | _ :: _ :: _ :: rest => by
    have ih := base64Chars_length rest
    simp [base64Chars, ih]
    omega

/-- C4: the fingerprint of a QueryInvocation is the pure, deterministic
function of the argument tuple that replaces each function element by its
serialized source text, JSON-serializes the ordered sequence, and
base64-encodes the MD5 digest of the text: a fixed-length (24-character)
string, so repeated calls on the same arguments yield the identical
fingerprint. -/
theorem fingerprint_deterministic_fixedLength (a : List JsVal) :
    (hashQueryArgs a).length = 24 ∧
    hashQueryArgs a =
      base64Encode (md5Bytes (strUtf8
        ((jsonVal (JsVal.vArr (a.map fnToSource))).getD ""))) ∧
    ∀ src rest, hashQueryArgs (JsVal.vFunc src :: rest) =
      hashQueryArgs (JsVal.vStr src :: rest) := by
  refine ⟨?_, rfl, ?_⟩
  · show (base64Encode (md5Bytes _)).length = 24
    unfold base64Encode
    show (base64Chars _).length = 24
    rw [base64Chars_length, md5Bytes_length]
  · intro src rest
    simp [hashQueryArgs, fnToSource]

/-- C7: passing the cache-collection name as a bare string is exactly
equivalent to passing it inside a CacheOptions object: the whole
observable behaviour of the invocation (cache collection resolved,
fingerprint, executor calls, upserts, completion-handler outcome) is
identical for both cached operations. -/
theorem cacheName_string_sugar (s : String) (qargs : List JsVal) (cb : JsVal) (env : Env) :
    cachedAggregate (JsVal.vStr s :: (qargs ++ [cb])) env =
      cachedAggregate
        (JsVal.vObj [("cacheCollectionName", JsVal.vStr s)] :: (qargs ++ [cb])) env ∧
    cachedMapReduce (JsVal.vStr s :: (qargs ++ [cb])) env =
      cachedMapReduce
        (JsVal.vObj [("cacheCollectionName", JsVal.vStr s)] :: (qargs ++ [cb])) env := by
  have h1 := parseCacheFuncParams_split (JsVal.vStr s) cb qargs
  have h2 := parseCacheFuncParams_split
    (JsVal.vObj [("cacheCollectionName", JsVal.vStr s)]) cb qargs
  constructor
  · simp only [cachedAggregate, h1, h2, sugarCacheOptions]
  · simp only [cachedMapReduce, h1, h2, sugarCacheOptions]

/-- The document written by `saveResultToCache` matches exactly the filter
hash it was written under. -/
theorem entryMatches_saveResult (h h' : String) (r : JsVal) (t : Int) :
    entryMatches h' (saveResultToCache h r t).2 = (h = h') := by
  simp [entryMatches, saveResultToCache, getProp, lookupField]

/-- The document written by `saveResultToCache` matches no other hash. -/
theorem entryMatches_saveResult_ne (h h' : String) (r : JsVal) (t : Int)
    (hne : h' ≠ h) :
    entryMatches h' (saveResultToCache h r t).2 = false := by
  simp [entryMatches, saveResultToCache, getProp, lookupField]
  exact fun he => hne he.symm

/-- A document cannot match two distinct hashes. -/
theorem entryMatches_unique (h h' : String) (d : JsVal)
    (h1 : entryMatches h d = true) (h2 : entryMatches h' d = true) : h = h' := by
  unfold entryMatches at h1 h2
  rcases hq : getProp d "queryHash" with _ | _ | _ | _ | s | _ | _ | _ | _ <;>
    rw [hq] at h1 h2 <;> simp_all

/-- After an upsert of a matching document, the lookup on that hash finds
exactly the written document. -/
theorem findOneQ_applyUpsert (st : List JsVal) (h : String) (doc : JsVal)
    (hm : entryMatches h doc = true) :
    findOneQ (applyUpsert st h doc) h = some doc := by
  induction st with
  | nil => simp [applyUpsert, findOneQ, hm]
  | cons d rest ih =>
    by_cases hd : entryMatches h d = true
    · simp [applyUpsert, hd, findOneQ, hm]
    · simp only [applyUpsert, hd, if_false, Bool.false_eq_true]
      simp only [findOneQ] at ih ⊢
      rw [List.find?_cons_of_neg _ (by simp [hd])]
      exact ih

/-- Upserting a document for hash `h` leaves the documents stored under
every other hash untouched. -/
theorem applyUpsert_other_unchanged (st : List JsVal) (h h' : String) (doc : JsVal)
    (hne : h' ≠ h) (hdoc : entryMatches h' doc = false) :
    (applyUpsert st h doc).filter (entryMatches h') = st.filter (entryMatches h') := by
  induction st with
  | nil => simp [applyUpsert, hdoc]
  | cons d rest ih =>
    by_cases hd : entryMatches h d = true
    · have hd' : entryMatches h' d = false := by
        by_contra hc
        exact hne (entryMatches_unique h' h d (by simp_all) hd)
      simp [applyUpsert, hd, hd', hdoc, List.filter_cons]
    · simp only [applyUpsert, hd, if_false, Bool.false_eq_true]
      simp [List.filter_cons, ih]

/-- After an upsert, exactly one document is stored under the written
hash, provided at most one was stored before. -/
theorem applyUpsert_count_one (st : List JsVal) (h : String) (doc : JsVal)
    (hm : entryMatches h doc = true)
    (hinv : (st.filter (entryMatches h)).length ≤ 1) :
    ((applyUpsert st h doc).filter (entryMatches h)).length = 1 := by
  induction st with
  | nil => simp [applyUpsert, hm]
  | cons d rest ih =>
    by_cases hd : entryMatches h d = true
    · rw [List.filter_cons_of_pos hd, List.length_cons] at hinv
      have hrest : (rest.filter (entryMatches h)).length = 0 := by omega
      simp [applyUpsert, hd, List.filter_cons, hm, hrest]
    · rw [List.filter_cons_of_neg (by simp [hd])] at hinv
      simp only [applyUpsert, hd, if_false, Bool.false_eq_true]
      rw [List.filter_cons_of_neg (by simp [hd])]
      exact ih hinv

/-- C1: on a cache hit (lookup resolves a non-empty entry) with
`forceUpdateCache` false, the underlying query executor is never called,
no cache write is performed, and the completion handler is invoked exactly
once with `(null, entry.cachedResult)` — the stored value — for
`cachedAggregate` and, in inline-output mode, for `cachedMapReduce`. -/
theorem cacheHit_idempotent (args : List JsVal) (env : Env) (entry : JsVal)
    (hnn : isNullish (parseCacheFuncParams args).cacheOptions = false)
    (hlk : env.lookup = .ok entry)
    (hne : isEmpty entry = false)
    (hforce : truthy (getProp (parseCacheFuncParams args).cacheOptions
      "forceUpdateCache") = false) :
    ((cachedAggregate args env).execCalls = [] ∧
     (cachedAggregate args env).upsertCalls = [] ∧
     (cachedAggregate args env).callbackCalls =
       [(JsVal.vNull, getProp entry "cachedResult")]) ∧
    (mrUsesInline (parseCacheFuncParams args).queryArgsArray = true →
     (cachedMapReduce args env).execCalls = [] ∧
     (cachedMapReduce args env).upsertCalls = [] ∧
     (cachedMapReduce args env).callbackCalls =
       [(JsVal.vNull, getProp entry "cachedResult")]) := by
  constructor
  · simp [cachedAggregate, hnn, hlk, hne, hforce]
  · intro hinline
    simp [cachedMapReduce, hnn, hlk, hne, hforce, hinline]

/-- C2: on a cache miss (or forced update) with a successful execution,
the query executor is called exactly once with the original
QueryInvocation arguments in order, then exactly one upsert is performed,
keyed by the computed fingerprint, with the
`queryHash / cachedAt / cachedResult` document whose `cachedResult` is the
execution result (or the output collection's name for non-inline
map-reduce), and then the completion handler receives the live result. -/
theorem cacheMiss_writeThrough (copt cb : JsVal) (qargs : List JsVal) (env : Env)
    (entry r : JsVal)
    (hnn : isNullish (sugarCacheOptions copt) = false)
    (hlk : env.lookup = .ok entry)
    (hmiss : isEmpty entry = true ∨
      truthy (getProp (sugarCacheOptions copt) "forceUpdateCache") = true)
    (hex : env.exec = .ok r) :
    ((cachedAggregate (copt :: (qargs ++ [cb])) env).execCalls = [qargs] ∧
     (cachedAggregate (copt :: (qargs ++ [cb])) env).upsertCalls =
       [saveResultToCache (hashQueryArgs qargs) r env.now] ∧
     (cachedAggregate (copt :: (qargs ++ [cb])) env).callbackCalls =
       [(jsErr env.upsertErr, r)]) ∧
    ((cachedMapReduce (copt :: (qargs ++ [cb])) env).execCalls = [qargs] ∧
     (cachedMapReduce (copt :: (qargs ++ [cb])) env).upsertCalls =
       [saveResultToCache (hashQueryArgs qargs)
         (if mrUsesInline qargs then r
          else if truthy r then getProp r "collectionName" else r) env.now] ∧
     (cachedMapReduce (copt :: (qargs ++ [cb])) env).callbackCalls =
       [(jsErr env.upsertErr, r)]) ∧
    (∀ nm, mrUsesInline qargs = false → r = JsVal.vColl nm →
      (cachedMapReduce (copt :: (qargs ++ [cb])) env).upsertCalls =
        [saveResultToCache (hashQueryArgs qargs) nm env.now]) := by
  have hp := parseCacheFuncParams_split copt cb qargs
  refine ⟨?_, ?_, ?_⟩
  · rcases hmiss with hm | hm <;> simp [cachedAggregate, hp, hnn, hlk, hm, hex]
  · rcases hmiss with hm | hm <;> simp [cachedMapReduce, hp, hnn, hlk, hm, hex]
  · intro nm hinl hr
    subst hr
    have h1 : truthy (JsVal.vColl nm) = true := rfl
    have h2 : getProp (JsVal.vColl nm) "collectionName" = nm := by simp [getProp]
    rcases hmiss with hm | hm <;>
      simp [cachedMapReduce, hp, hnn, hlk, hm, hex, hinl, h1, h2]

/-- C3: with `forceUpdateCache` true and a pre-existing non-empty entry
for the fingerprint, the executor is still called exactly once and the
upsert overwrites the existing entry: in any cache state, the entry found
under the fingerprint after applying the upsert is the newly written
document, whose `cachedResult` is derived from the new execution result
(the result itself for aggregate; the result, or its collection name in
reference mode, for map-reduce), not the old one. -/
theorem forcedUpdate_overwrites (copt cb : JsVal) (qargs : List JsVal) (env : Env)
    (entry r : JsVal)
    (hnn : isNullish (sugarCacheOptions copt) = false)
    (hlk : env.lookup = .ok entry)
    (_hne : isEmpty entry = false)
    (hforce : truthy (getProp (sugarCacheOptions copt) "forceUpdateCache") = true)
    (hex : env.exec = .ok r) :
    ((cachedAggregate (copt :: (qargs ++ [cb])) env).execCalls = [qargs] ∧
     (cachedAggregate (copt :: (qargs ++ [cb])) env).upsertCalls =
       [saveResultToCache (hashQueryArgs qargs) r env.now] ∧
     ∀ st, findOneQ
         (applyUpsert st (hashQueryArgs qargs)
           (saveResultToCache (hashQueryArgs qargs) r env.now).2)
         (hashQueryArgs qargs) =
       some (saveResultToCache (hashQueryArgs qargs) r env.now).2 ∧
       getProp (saveResultToCache (hashQueryArgs qargs) r env.now).2 "cachedResult" = r) ∧
    ((cachedMapReduce (copt :: (qargs ++ [cb])) env).execCalls = [qargs] ∧
     (cachedMapReduce (copt :: (qargs ++ [cb])) env).upsertCalls =
       [saveResultToCache (hashQueryArgs qargs)
         (if mrUsesInline qargs then r
          else if truthy r then getProp r "collectionName" else r) env.now]) := by
  have hp := parseCacheFuncParams_split copt cb qargs
  refine ⟨⟨?_, ?_, ?_⟩, ?_⟩
  · simp [cachedAggregate, hp, hnn, hlk, hforce, hex]
  · simp [cachedAggregate, hp, hnn, hlk, hforce, hex]
  · intro st
    refine ⟨findOneQ_applyUpsert st _ _ ?_, ?_⟩
    · simp [entryMatches_saveResult]
    · simp [saveResultToCache, getProp, lookupField]
  · constructor <;> simp [cachedMapReduce, hp, hnn, hlk, hforce, hex]

/-- C10: when the query succeeds but the write-through upsert fails, the
completion handler is invoked with the write error as first argument and
still receives the live execution result as second argument. -/
theorem writeThrough_failure_keeps_result (args : List JsVal) (env : Env)
    (e entry r : JsVal)
    (hnn : isNullish (parseCacheFuncParams args).cacheOptions = false)
    (hlk : env.lookup = .ok entry)
    (hmiss : isEmpty entry = true ∨
      truthy (getProp (parseCacheFuncParams args).cacheOptions "forceUpdateCache") = true)
    (hex : env.exec = .ok r)
    (hwe : env.upsertErr = some e) :
    ((cachedAggregate args env).callbackCalls = [(e, r)] ∧
     (cachedAggregate args env).upsertCalls.length = 1) ∧
    ((cachedMapReduce args env).callbackCalls = [(e, r)] ∧
     (cachedMapReduce args env).upsertCalls.length = 1) := by
  rcases hmiss with hm | hm <;>
    exact ⟨by simp [cachedAggregate, hnn, hlk, hm, hex, hwe, jsErr],
           by simp [cachedMapReduce, hnn, hlk, hm, hex, hwe, jsErr]⟩

/-- A collection handle is never the bare stored value it was resolved
from. -/
theorem vColl_ne (x : JsVal) : JsVal.vColl x ≠ x := by
  intro h
  have hs := congrArg sizeOf h
  simp at hs

/-- C5: the result shape of `cachedMapReduce` is decided by the third
QueryInvocation element's `out.inline` flag.  Inline: a hit returns the
stored value directly with no collection resolution and a miss stores the
raw result.  Reference mode: a miss stores only the execution result's
`collectionName`, while a hit resolves the stored name through
`db.collection` and passes the handle — never the bare name — to the
completion handler. -/
theorem mapReduce_resultShape (copt cb : JsVal) (qargs : List JsVal) (env : Env)
    (hnn : isNullish (sugarCacheOptions copt) = false) :
    (∀ entry, mrUsesInline qargs = true → env.lookup = .ok entry →
      isEmpty entry = false →
      truthy (getProp (sugarCacheOptions copt) "forceUpdateCache") = false →
      (cachedMapReduce (copt :: (qargs ++ [cb])) env).callbackCalls =
        [(JsVal.vNull, getProp entry "cachedResult")] ∧
      (cachedMapReduce (copt :: (qargs ++ [cb])) env).resolvedCollections = []) ∧
    (∀ entry r, mrUsesInline qargs = true → env.lookup = .ok entry →
      (isEmpty entry = true ∨
        truthy (getProp (sugarCacheOptions copt) "forceUpdateCache") = true) →
      env.exec = .ok r →
      (cachedMapReduce (copt :: (qargs ++ [cb])) env).upsertCalls =
        [saveResultToCache (hashQueryArgs qargs) r env.now]) ∧
    (∀ entry, mrUsesInline qargs = false → env.lookup = .ok entry →
      isEmpty entry = false →
      truthy (getProp (sugarCacheOptions copt) "forceUpdateCache") = false →
      (cachedMapReduce (copt :: (qargs ++ [cb])) env).callbackCalls =
        [(JsVal.vNull, JsVal.vColl (getProp entry "cachedResult"))] ∧
      (cachedMapReduce (copt :: (qargs ++ [cb])) env).resolvedCollections =
        [getProp entry "cachedResult"] ∧
      JsVal.vColl (getProp entry "cachedResult") ≠ getProp entry "cachedResult") ∧
    (∀ entry nm, mrUsesInline qargs = false → env.lookup = .ok entry →
      (isEmpty entry = true ∨
        truthy (getProp (sugarCacheOptions copt) "forceUpdateCache") = true) →
      env.exec = .ok (JsVal.vColl nm) →
      (cachedMapReduce (copt :: (qargs ++ [cb])) env).upsertCalls =
        [saveResultToCache (hashQueryArgs qargs) nm env.now]) := by
  have hp := parseCacheFuncParams_split copt cb qargs
  refine ⟨?_, ?_, ?_, ?_⟩
  · intro entry hinl hlk hne hforce
    simp [cachedMapReduce, hp, hnn, hlk, hne, hforce, hinl]
  · intro entry r hinl hlk hmiss hex
    rcases hmiss with hm | hm <;>
      simp [cachedMapReduce, hp, hnn, hlk, hm, hex, hinl]
  · intro entry hinl hlk hne hforce
    refine ⟨?_, ?_, vColl_ne _⟩ <;>
      simp [cachedMapReduce, hp, hnn, hlk, hne, hforce, hinl]
  · intro entry nm hinl hlk hmiss hex
    have h1 : truthy (JsVal.vColl nm) = true := rfl
    have h2 : getProp (JsVal.vColl nm) "collectionName" = nm := by simp [getProp]
    rcases hmiss with hm | hm <;>
      simp [cachedMapReduce, hp, hnn, hlk, hm, hex, hinl, h1, h2]

/-- C6: each failure is reported exactly once through the completion
handler and terminates the invocation, for both cached operations: a
lookup failure is propagated with the executor never called; an execution
failure is propagated with no upsert attempted; a write-through failure is
propagated after the single upsert attempt; and the handler is never
invoked more than once in any invocation. -/
theorem failures_reported_once (args : List JsVal) (env : Env)
    (hnn : isNullish (parseCacheFuncParams args).cacheOptions = false) :
    (∀ e, env.lookup = .error e →
      ((cachedAggregate args env).execCalls = [] ∧
       (cachedAggregate args env).upsertCalls = [] ∧
       (cachedAggregate args env).callbackCalls = [(e, JsVal.vUndefined)]) ∧
      ((cachedMapReduce args env).execCalls = [] ∧
       (cachedMapReduce args env).upsertCalls = [] ∧
       (cachedMapReduce args env).callbackCalls = [(e, JsVal.vUndefined)])) ∧
    (∀ e entry, env.lookup = .ok entry →
      (isEmpty entry = true ∨
        truthy (getProp (parseCacheFuncParams args).cacheOptions
          "forceUpdateCache") = true) →
      env.exec = .error e →
      ((cachedAggregate args env).upsertCalls = [] ∧
       (cachedAggregate args env).execCalls.length = 1 ∧
       (cachedAggregate args env).callbackCalls = [(e, JsVal.vUndefined)]) ∧
      ((cachedMapReduce args env).upsertCalls = [] ∧
       (cachedMapReduce args env).execCalls.length = 1 ∧
       (cachedMapReduce args env).callbackCalls = [(e, JsVal.vUndefined)])) ∧
    (∀ e entry r, env.lookup = .ok entry →
      (isEmpty entry = true ∨
        truthy (getProp (parseCacheFuncParams args).cacheOptions
          "forceUpdateCache") = true) →
      env.exec = .ok r →
      env.upsertErr = some e →
      ((cachedAggregate args env).upsertCalls.length = 1 ∧
       (cachedAggregate args env).callbackCalls = [(e, r)]) ∧
      ((cachedMapReduce args env).upsertCalls.length = 1 ∧
       (cachedMapReduce args env).callbackCalls = [(e, r)])) ∧
    ((cachedAggregate args env).callbackCalls.length ≤ 1 ∧
     (cachedMapReduce args env).callbackCalls.length ≤ 1) := by
  obtain ⟨lk, ex, ue, now⟩ := env
  refine ⟨?_, ?_, ?_, ?_⟩
  · intro e hlk
    cases hlk
    exact ⟨by simp [cachedAggregate, hnn], by simp [cachedMapReduce, hnn]⟩
  · intro e entry hlk hmiss hex
    cases hlk
    cases hex
    rcases hmiss with hm | hm <;>
      exact ⟨by simp [cachedAggregate, hnn, hm], by simp [cachedMapReduce, hnn, hm]⟩
  · intro e entry r hlk hmiss hex hwe
    cases hlk
    cases hex
    cases hwe
    rcases hmiss with hm | hm <;>
      exact ⟨by simp [cachedAggregate, hnn, hm, jsErr], by simp [cachedMapReduce, hnn, hm, jsErr]⟩
  · cases lk with
    | error e => exact ⟨by simp [cachedAggregate, hnn], by simp [cachedMapReduce, hnn]⟩
    | ok entry =>
      by_cases hc : (!isEmpty entry && !truthy (getProp (parseCacheFuncParams args).cacheOptions
          "forceUpdateCache")) = true
      · refine ⟨?_, ?_⟩
        · simp [cachedAggregate, hnn, hc]
        · simp [cachedMapReduce, hnn, hc]
          split <;> simp
      · cases ex with
        | error e =>
          exact ⟨by simp [cachedAggregate, hnn, hc], by simp [cachedMapReduce, hnn, hc]⟩
        | ok r =>
          exact ⟨by simp [cachedAggregate, hnn, hc], by simp [cachedMapReduce, hnn, hc]⟩

/-- C8 counterexample: invoking `cachedAggregate` with CacheOptions
undefined does not complete normally — the property access
`params.cacheOptions.cacheCollectionName` (line 81) throws a TypeError
before any cache collection is resolved and the completion handler is
never invoked, so no default cache collection is used. -/
theorem undefinedCacheOptions_throws :
    (cachedAggregate [JsVal.vUndefined, JsVal.vArr [], JsVal.vFunc "cb"]
      ⟨Except.ok JsVal.vNull, Except.ok JsVal.vNull, none, 0⟩).thrown =
        some "TypeError" ∧
    (cachedAggregate [JsVal.vUndefined, JsVal.vArr [], JsVal.vFunc "cb"]
      ⟨Except.ok JsVal.vNull, Except.ok JsVal.vNull, none, 0⟩).cacheCollectionArg =
        none ∧
    (cachedAggregate [JsVal.vUndefined, JsVal.vArr [], JsVal.vFunc "cb"]
      ⟨Except.ok JsVal.vNull, Except.ok JsVal.vNull, none, 0⟩).callbackCalls = [] := by
  exact ⟨rfl, rfl, rfl⟩

/-- C8 (amended): for every invocation whose parsed CacheOptions is a
non-nullish value whose `cacheCollectionName` is absent or falsy, the
operation completes normally (nothing is thrown and the completion
handler is invoked exactly once) and the cache collection resolved is the
default `queryCache`; when CacheOptions is null or undefined the
invocation instead throws before resolving any cache collection. -/
theorem defaultCacheCollection_queryCache (args : List JsVal) (env : Env)
    (hnn : isNullish (parseCacheFuncParams args).cacheOptions = false)
    (hname : truthy (getProp (parseCacheFuncParams args).cacheOptions
      "cacheCollectionName") = false) :
    ((cachedAggregate args env).thrown = none ∧
     (cachedAggregate args env).cacheCollectionArg = some (JsVal.vStr "queryCache") ∧
     (cachedAggregate args env).callbackCalls.length = 1) ∧
    ((cachedMapReduce args env).thrown = none ∧
     (cachedMapReduce args env).cacheCollectionArg = some (JsVal.vStr "queryCache") ∧
     (cachedMapReduce args env).callbackCalls.length = 1) := by
  obtain ⟨lk, ex, ue, now⟩ := env
  cases lk with
  | error e =>
    exact ⟨by simp [cachedAggregate, hnn, hname], by simp [cachedMapReduce, hnn, hname]⟩
  | ok entry =>
    by_cases hc : (!isEmpty entry &&
        !truthy (getProp (parseCacheFuncParams args).cacheOptions
          "forceUpdateCache")) = true
    · refine ⟨by simp [cachedAggregate, hnn, hname, hc], ?_⟩
      simp [cachedMapReduce, hnn, hname, hc]
      split <;> simp
    · cases ex with
      | error e =>
        exact ⟨by simp [cachedAggregate, hnn, hname, hc],
               by simp [cachedMapReduce, hnn, hname, hc]⟩
      | ok r =>
        exact ⟨by simp [cachedAggregate, hnn, hname, hc],
               by simp [cachedMapReduce, hnn, hname, hc]⟩

/-- C9: every cache write the core performs is the upsert produced by
`saveResultToCache`, whose filter key is the fingerprint and whose
document carries that same fingerprint; applying such an upsert to a
cache state with at most one entry per distinct queryHash preserves that
invariant — the written hash ends with exactly one entry and every other
hash's entries are untouched (created or overwritten, never duplicated,
never deleted). -/
theorem upsert_uniqueness_invariant :
    (∀ (args : List JsVal) (env : Env) (p : JsVal × JsVal),
      p ∈ (cachedAggregate args env).upsertCalls →
      ∃ rc, p = saveResultToCache
        (hashQueryArgs (parseCacheFuncParams args).queryArgsArray) rc env.now) ∧
    (∀ (args : List JsVal) (env : Env) (p : JsVal × JsVal),
      p ∈ (cachedMapReduce args env).upsertCalls →
      ∃ rc, p = saveResultToCache
        (hashQueryArgs (parseCacheFuncParams args).queryArgsArray) rc env.now) ∧
    (∀ (h : String) (rc : JsVal) (t : Int),
      (saveResultToCache h rc t).1 = JsVal.vObj [("queryHash", JsVal.vStr h)] ∧
      entryMatches h (saveResultToCache h rc t).2 = true) ∧
    (∀ (st : List JsVal) (h : String) (rc : JsVal) (t : Int), cacheInv st →
      cacheInv (applyUpsert st h (saveResultToCache h rc t).2) ∧
      ((applyUpsert st h (saveResultToCache h rc t).2).filter
        (entryMatches h)).length = 1 ∧
      (∀ h', h' ≠ h →
        (applyUpsert st h (saveResultToCache h rc t).2).filter (entryMatches h') =
          st.filter (entryMatches h'))) := by
  refine ⟨?_, ?_, ?_, ?_⟩
  · intro args env p hp
    obtain ⟨lk, ex, ue, now⟩ := env
    by_cases hnn : isNullish (parseCacheFuncParams args).cacheOptions = true
    · simp [cachedAggregate, hnn] at hp
    · cases lk with
      | error e => simp [cachedAggregate, hnn] at hp
      | ok entry =>
        by_cases hc : (!isEmpty entry &&
            !truthy (getProp (parseCacheFuncParams args).cacheOptions
              "forceUpdateCache")) = true
        · simp [cachedAggregate, hnn, hc] at hp
        · cases ex with
          | error e => simp [cachedAggregate, hnn, hc] at hp
          | ok r =>
            simp [cachedAggregate, hnn, hc] at hp
            exact ⟨r, hp⟩
  · intro args env p hp
    obtain ⟨lk, ex, ue, now⟩ := env
    by_cases hnn : isNullish (parseCacheFuncParams args).cacheOptions = true
    · simp [cachedMapReduce, hnn] at hp
    · cases lk with
      | error e => simp [cachedMapReduce, hnn] at hp
      | ok entry =>
        by_cases hc : (!isEmpty entry &&
            !truthy (getProp (parseCacheFuncParams args).cacheOptions
              "forceUpdateCache")) = true
        · by_cases hil : mrUsesInline (parseCacheFuncParams args).queryArgsArray = true
          · simp [cachedMapReduce, hnn, hc, hil] at hp
          · simp [cachedMapReduce, hnn, hc, hil] at hp
        · cases ex with
          | error e => simp [cachedMapReduce, hnn, hc] at hp
          | ok r =>
            simp [cachedMapReduce, hnn, hc] at hp
            exact ⟨_, hp⟩
  · intro h rc t
    exact ⟨rfl, by simp [entryMatches_saveResult]⟩
  · intro st h rc t hinv
    have hm : entryMatches h (saveResultToCache h rc t).2 = true := by
      simp [entryMatches_saveResult]
    refine ⟨?_, applyUpsert_count_one st h _ hm (hinv h), ?_⟩
    · intro h''
      by_cases hh : h'' = h
      · subst hh
        rw [applyUpsert_count_one st h'' _ hm (hinv h'')]
      · rw [applyUpsert_other_unchanged st h h'' _ hh
          (entryMatches_saveResult_ne h h'' rc t hh)]
        exact hinv h''
    · intro h' hne
      exact applyUpsert_other_unchanged st h h' _ hne
        (entryMatches_saveResult_ne h h' rc t hne)

/-- Witness for the cache-hit theorem at a concrete invocation. -/
theorem cacheHit_idempotent_witness :
    (cachedAggregate
      [JsVal.vStr "c", JsVal.vFunc "m", JsVal.vFunc "r",
       JsVal.vObj [("out", JsVal.vObj [("inline", JsVal.vNum 1)])], JsVal.vFunc "cb"]
      ⟨Except.ok (JsVal.vObj [("queryHash", JsVal.vStr "h"),
        ("cachedResult", JsVal.vStr "res")]),
       Except.ok (JsVal.vStr "live"), none, 0⟩).execCalls = [] ∧
    (cachedAggregate
      [JsVal.vStr "c", JsVal.vFunc "m", JsVal.vFunc "r",
       JsVal.vObj [("out", JsVal.vObj [("inline", JsVal.vNum 1)])], JsVal.vFunc "cb"]
      ⟨Except.ok (JsVal.vObj [("queryHash", JsVal.vStr "h"),
        ("cachedResult", JsVal.vStr "res")]),
       Except.ok (JsVal.vStr "live"), none, 0⟩).callbackCalls =
      [(JsVal.vNull, JsVal.vStr "res")] ∧
    (cachedMapReduce
      [JsVal.vStr "c", JsVal.vFunc "m", JsVal.vFunc "r",
       JsVal.vObj [("out", JsVal.vObj [("inline", JsVal.vNum 1)])], JsVal.vFunc "cb"]
      ⟨Except.ok (JsVal.vObj [("queryHash", JsVal.vStr "h"),
        ("cachedResult", JsVal.vStr "res")]),
       Except.ok (JsVal.vStr "live"), none, 0⟩).execCalls = [] ∧
    (cachedMapReduce
      [JsVal.vStr "c", JsVal.vFunc "m", JsVal.vFunc "r",
       JsVal.vObj [("out", JsVal.vObj [("inline", JsVal.vNum 1)])], JsVal.vFunc "cb"]
      ⟨Except.ok (JsVal.vObj [("queryHash", JsVal.vStr "h"),
        ("cachedResult", JsVal.vStr "res")]),
       Except.ok (JsVal.vStr "live"), none, 0⟩).callbackCalls =
      [(JsVal.vNull, JsVal.vStr "res")] := by
  have hw := cacheHit_idempotent
    [JsVal.vStr "c", JsVal.vFunc "m", JsVal.vFunc "r",
     JsVal.vObj [("out", JsVal.vObj [("inline", JsVal.vNum 1)])], JsVal.vFunc "cb"]
    ⟨Except.ok (JsVal.vObj [("queryHash", JsVal.vStr "h"),
      ("cachedResult", JsVal.vStr "res")]),
     Except.ok (JsVal.vStr "live"), none, 0⟩
    (JsVal.vObj [("queryHash", JsVal.vStr "h"), ("cachedResult", JsVal.vStr "res")])
    (by decide) rfl (by decide) (by decide)
  have hmr := hw.2 (by decide)
  exact ⟨hw.1.1, hw.1.2.2, hmr.1, hmr.2.2⟩

/-- Witness for the cache-miss write-through theorem at a concrete
invocation. -/
theorem cacheMiss_writeThrough_witness :
    (cachedAggregate [JsVal.vStr "c", JsVal.vArr [], JsVal.vFunc "cb"]
      ⟨Except.ok JsVal.vNull, Except.ok (JsVal.vStr "live"), none, 7⟩).execCalls =
      [[JsVal.vArr []]] ∧
    (cachedAggregate [JsVal.vStr "c", JsVal.vArr [], JsVal.vFunc "cb"]
      ⟨Except.ok JsVal.vNull, Except.ok (JsVal.vStr "live"), none, 7⟩).upsertCalls =
      [saveResultToCache (hashQueryArgs [JsVal.vArr []]) (JsVal.vStr "live") 7] ∧
    (cachedAggregate [JsVal.vStr "c", JsVal.vArr [], JsVal.vFunc "cb"]
      ⟨Except.ok JsVal.vNull, Except.ok (JsVal.vStr "live"), none, 7⟩).callbackCalls =
      [(JsVal.vNull, JsVal.vStr "live")] := by
  have hw := cacheMiss_writeThrough (JsVal.vStr "c") (JsVal.vFunc "cb") [JsVal.vArr []]
    ⟨Except.ok JsVal.vNull, Except.ok (JsVal.vStr "live"), none, 7⟩
    JsVal.vNull (JsVal.vStr "live")
    (by decide) rfl (Or.inl (by decide)) rfl
  exact ⟨hw.1.1, hw.1.2.1, hw.1.2.2⟩

/-- Witness for the forced-update theorem at a concrete invocation. -/
theorem forcedUpdate_overwrites_witness :
    (cachedAggregate
      [JsVal.vObj [("cacheCollectionName", JsVal.vStr "c"),
        ("forceUpdateCache", JsVal.vBool true)], JsVal.vArr [], JsVal.vFunc "cb"]
      ⟨Except.ok (JsVal.vObj [("queryHash", JsVal.vStr "h"),
        ("cachedResult", JsVal.vStr "old")]),
       Except.ok (JsVal.vStr "new"), none, 3⟩).execCalls = [[JsVal.vArr []]] ∧
    findOneQ
      (applyUpsert [JsVal.vObj [("queryHash", JsVal.vStr "h"),
        ("cachedResult", JsVal.vStr "old")]]
        (hashQueryArgs [JsVal.vArr []])
        (saveResultToCache (hashQueryArgs [JsVal.vArr []]) (JsVal.vStr "new") 3).2)
      (hashQueryArgs [JsVal.vArr []]) =
      some (saveResultToCache (hashQueryArgs [JsVal.vArr []]) (JsVal.vStr "new") 3).2 ∧
    getProp (saveResultToCache (hashQueryArgs [JsVal.vArr []]) (JsVal.vStr "new") 3).2
      "cachedResult" = JsVal.vStr "new" := by
  have hw := forcedUpdate_overwrites
    (JsVal.vObj [("cacheCollectionName", JsVal.vStr "c"),
      ("forceUpdateCache", JsVal.vBool true)])
    (JsVal.vFunc "cb") [JsVal.vArr []]
    ⟨Except.ok (JsVal.vObj [("queryHash", JsVal.vStr "h"),
      ("cachedResult", JsVal.vStr "old")]),
     Except.ok (JsVal.vStr "new"), none, 3⟩
    (JsVal.vObj [("queryHash", JsVal.vStr "h"), ("cachedResult", JsVal.vStr "old")])
    (JsVal.vStr "new")
    (by decide) rfl (by decide) (by decide) rfl
  exact ⟨hw.1.1,
    (hw.1.2.2 [JsVal.vObj [("queryHash", JsVal.vStr "h"),
      ("cachedResult", JsVal.vStr "old")]]).1,
    (hw.1.2.2 []).2⟩

/-- Witness for the map-reduce result-shape theorem at concrete
invocations: a reference-mode hit resolves the stored name to a handle, an
inline-mode hit returns the stored value as-is. -/
theorem mapReduce_resultShape_witness :
    (cachedMapReduce [JsVal.vStr "c", JsVal.vFunc "m", JsVal.vFunc "r", JsVal.vFunc "cb"]
      ⟨Except.ok (JsVal.vObj [("cachedResult", JsVal.vStr "resultColl")]),
       Except.ok JsVal.vNull, none, 0⟩).callbackCalls =
      [(JsVal.vNull, JsVal.vColl (JsVal.vStr "resultColl"))] ∧
    (cachedMapReduce [JsVal.vStr "c", JsVal.vFunc "m", JsVal.vFunc "r", JsVal.vFunc "cb"]
      ⟨Except.ok (JsVal.vObj [("cachedResult", JsVal.vStr "resultColl")]),
       Except.ok JsVal.vNull, none, 0⟩).resolvedCollections =
      [JsVal.vStr "resultColl"] ∧
    (cachedMapReduce
      [JsVal.vStr "c", JsVal.vFunc "m", JsVal.vFunc "r",
       JsVal.vObj [("out", JsVal.vObj [("inline", JsVal.vNum 1)])], JsVal.vFunc "cb"]
      ⟨Except.ok (JsVal.vObj [("cachedResult", JsVal.vArr [JsVal.vNum 1])]),
       Except.ok JsVal.vNull, none, 0⟩).callbackCalls =
      [(JsVal.vNull, JsVal.vArr [JsVal.vNum 1])] ∧
    (cachedMapReduce
      [JsVal.vStr "c", JsVal.vFunc "m", JsVal.vFunc "r",
       JsVal.vObj [("out", JsVal.vObj [("inline", JsVal.vNum 1)])], JsVal.vFunc "cb"]
      ⟨Except.ok (JsVal.vObj [("cachedResult", JsVal.vArr [JsVal.vNum 1])]),
       Except.ok JsVal.vNull, none, 0⟩).resolvedCollections = [] := by
  have hw1 := (mapReduce_resultShape (JsVal.vStr "c") (JsVal.vFunc "cb")
    [JsVal.vFunc "m", JsVal.vFunc "r"]
    ⟨Except.ok (JsVal.vObj [("cachedResult", JsVal.vStr "resultColl")]),
     Except.ok JsVal.vNull, none, 0⟩ (by decide)).2.2.1
    (JsVal.vObj [("cachedResult", JsVal.vStr "resultColl")])
    (by decide) rfl (by decide) (by decide)
  have hw2 := (mapReduce_resultShape (JsVal.vStr "c") (JsVal.vFunc "cb")
    [JsVal.vFunc "m", JsVal.vFunc "r",
     JsVal.vObj [("out", JsVal.vObj [("inline", JsVal.vNum 1)])]]
    ⟨Except.ok (JsVal.vObj [("cachedResult", JsVal.vArr [JsVal.vNum 1])]),
     Except.ok JsVal.vNull, none, 0⟩ (by decide)).1
    (JsVal.vObj [("cachedResult", JsVal.vArr [JsVal.vNum 1])])
    (by decide) rfl (by decide) (by decide)
  exact ⟨hw1.1, hw1.2.1, hw2.1, hw2.2⟩

/-- Witness for the failure-semantics theorem at concrete invocations for
each failure kind. -/
theorem failures_reported_once_witness :
    (cachedAggregate [JsVal.vStr "c", JsVal.vArr [], JsVal.vFunc "cb"]
      ⟨Except.error (JsVal.vStr "lookupErr"), Except.ok JsVal.vNull, none, 0⟩).execCalls =
      [] ∧
    (cachedAggregate [JsVal.vStr "c", JsVal.vArr [], JsVal.vFunc "cb"]
      ⟨Except.error (JsVal.vStr "lookupErr"), Except.ok JsVal.vNull, none,
        0⟩).callbackCalls = [(JsVal.vStr "lookupErr", JsVal.vUndefined)] ∧
    (cachedAggregate [JsVal.vStr "c", JsVal.vArr [], JsVal.vFunc "cb"]
      ⟨Except.ok JsVal.vNull, Except.error (JsVal.vStr "execErr"), none,
        0⟩).upsertCalls = [] ∧
    (cachedAggregate [JsVal.vStr "c", JsVal.vArr [], JsVal.vFunc "cb"]
      ⟨Except.ok JsVal.vNull, Except.error (JsVal.vStr "execErr"), none,
        0⟩).callbackCalls = [(JsVal.vStr "execErr", JsVal.vUndefined)] ∧
    (cachedMapReduce [JsVal.vStr "c", JsVal.vArr [], JsVal.vFunc "cb"]
      ⟨Except.ok JsVal.vNull, Except.ok (JsVal.vStr "live"),
        some (JsVal.vStr "writeErr"), 0⟩).callbackCalls =
      [(JsVal.vStr "writeErr", JsVal.vStr "live")] ∧
    (cachedAggregate [JsVal.vStr "c", JsVal.vArr [], JsVal.vFunc "cb"]
      ⟨Except.ok JsVal.vNull, Except.ok (JsVal.vStr "live"),
        some (JsVal.vStr "writeErr"), 0⟩).callbackCalls.length ≤ 1 := by
  have h1 := failures_reported_once [JsVal.vStr "c", JsVal.vArr [], JsVal.vFunc "cb"]
    ⟨Except.error (JsVal.vStr "lookupErr"), Except.ok JsVal.vNull, none, 0⟩ (by decide)
  have h2 := failures_reported_once [JsVal.vStr "c", JsVal.vArr [], JsVal.vFunc "cb"]
    ⟨Except.ok JsVal.vNull, Except.error (JsVal.vStr "execErr"), none, 0⟩ (by decide)
  have h3 := failures_reported_once [JsVal.vStr "c", JsVal.vArr [], JsVal.vFunc "cb"]
    ⟨Except.ok JsVal.vNull, Except.ok (JsVal.vStr "live"),
      some (JsVal.vStr "writeErr"), 0⟩ (by decide)
  have g1 := h1.1 (JsVal.vStr "lookupErr") rfl
  have g2 := h2.2.1 (JsVal.vStr "execErr") JsVal.vNull rfl (Or.inl (by decide)) rfl
  have g3 := h3.2.2.1 (JsVal.vStr "writeErr") JsVal.vNull (JsVal.vStr "live")
    rfl (Or.inl (by decide)) rfl rfl
  exact ⟨g1.1.1, g1.1.2.2, g2.1.1, g2.1.2.2, g3.2.2, h3.2.2.2.1⟩

/-- Witness for the default-cache-collection theorem at a concrete
invocation with an options object lacking `cacheCollectionName`. -/
theorem defaultCacheCollection_queryCache_witness :
    (cachedAggregate [JsVal.vObj [], JsVal.vArr [], JsVal.vFunc "cb"]
      ⟨Except.ok JsVal.vNull, Except.ok JsVal.vNull, none, 0⟩).thrown = none ∧
    (cachedAggregate [JsVal.vObj [], JsVal.vArr [], JsVal.vFunc "cb"]
      ⟨Except.ok JsVal.vNull, Except.ok JsVal.vNull, none, 0⟩).cacheCollectionArg =
      some (JsVal.vStr "queryCache") ∧
    (cachedMapReduce [JsVal.vObj [], JsVal.vArr [], JsVal.vFunc "cb"]
      ⟨Except.ok JsVal.vNull, Except.ok JsVal.vNull, none, 0⟩).cacheCollectionArg =
      some (JsVal.vStr "queryCache") := by
  have hw := defaultCacheCollection_queryCache
    [JsVal.vObj [], JsVal.vArr [], JsVal.vFunc "cb"]
    ⟨Except.ok JsVal.vNull, Except.ok JsVal.vNull, none, 0⟩ (by decide) (by decide)
  exact ⟨hw.1.1, hw.1.2.1, hw.2.2.1⟩

/-- Witness for the upsert-uniqueness theorem: the concrete upsert of a
concrete invocation has the `saveResultToCache` shape, and applying an
upsert to the empty cache state yields exactly one entry for the hash. -/
theorem upsert_uniqueness_invariant_witness :
    (∃ rc, saveResultToCache (hashQueryArgs [JsVal.vArr []]) (JsVal.vStr "live") 5 =
      saveResultToCache (hashQueryArgs [JsVal.vArr []]) rc 5) ∧
    cacheInv (applyUpsert [] "h" (saveResultToCache "h" (JsVal.vNum 1) 0).2) ∧
    ((applyUpsert [] "h" (saveResultToCache "h" (JsVal.vNum 1) 0).2).filter
      (entryMatches "h")).length = 1 := by
  have h4 := upsert_uniqueness_invariant
  have hmem := h4.1 [JsVal.vStr "c", JsVal.vArr [], JsVal.vFunc "cb"]
    ⟨Except.ok JsVal.vNull, Except.ok (JsVal.vStr "live"), none, 5⟩
    (saveResultToCache (hashQueryArgs [JsVal.vArr []]) (JsVal.vStr "live") 5)
    (List.Mem.head _)
  have hpres := h4.2.2.2 [] "h" (JsVal.vNum 1) 0 (fun h => by simp)
  exact ⟨hmem, hpres.1, hpres.2.1⟩

/-- Witness for the write-through-failure theorem at a concrete
invocation. -/
theorem writeThrough_failure_keeps_result_witness :
    (cachedAggregate [JsVal.vStr "c", JsVal.vArr [], JsVal.vFunc "cb"]
      ⟨Except.ok JsVal.vNull, Except.ok (JsVal.vStr "live"),
        some (JsVal.vStr "boom"), 0⟩).callbackCalls =
      [(JsVal.vStr "boom", JsVal.vStr "live")] ∧
    (cachedMapReduce [JsVal.vStr "c", JsVal.vArr [], JsVal.vFunc "cb"]
      ⟨Except.ok JsVal.vNull, Except.ok (JsVal.vStr "live"),
        some (JsVal.vStr "boom"), 0⟩).callbackCalls =
      [(JsVal.vStr "boom", JsVal.vStr "live")] := by
  have hw := writeThrough_failure_keeps_result
    [JsVal.vStr "c", JsVal.vArr [], JsVal.vFunc "cb"]
    ⟨Except.ok JsVal.vNull, Except.ok (JsVal.vStr "live"),
      some (JsVal.vStr "boom"), 0⟩
    (JsVal.vStr "boom") JsVal.vNull (JsVal.vStr "live")
    (by decide) rfl (Or.inl (by decide)) rfl rfl
  exact ⟨hw.1.1, hw.2.1⟩
